import Mathlib

/-!
Verification of the chain-walking fresh-wallet detection engine.

Shallow embedding of the core components:
  TransactionAnalyzer (src/src/core/TransactionAnalyzer.js),
  FreshWalletDetector (src/src/core/FreshWalletDetector.js),
  SolanaService       (src/unnamed/part_000 is the bot glue; the ledger
                       client itself is src/unnamed/part_006).

The ledger (network) is modelled by a `Chain` value giving, per wallet
address: the length of its full signature list, its chronologically
sorted resolved transaction history, the outgoing transfers the ledger
client extracts for it, and whether fetching its signature history
fails (non-throttling error, or all retries exhausted).

Numeric conventions: lamport balances are `Int` (JS number, integral in
the source data); SOL amounts are `Rat` (the source uses JS floats; the
filter and threshold comparisons are modelled exactly).  Reason strings
keep the shape of the source strings; float formatting inside some
reasons (percentages) is elided since nothing reads it back.
-/

/-- A resolved transaction, as consumed by the analyzer: the involved
account addresses and the pre/post lamport balances by position
(`transaction.transaction.message.accountKeys`, `transaction.meta.preBalances`,
`transaction.meta.postBalances`). -/
structure Tx where
  accountKeys : List String
  preBalances : List Int
  postBalances : List Int
  deriving Repr, DecidableEq, Inhabited

/-- An outgoing transfer record as produced by
`SolanaService.getOutgoingSOLTransactions` (fields used by the scan). -/
structure OutTx where
  signature : String
  timestamp : Option Nat
  amountSOL : Rat
  dest : String
  deriving Repr, DecidableEq, Inhabited

/-- The ledger, as seen through the client: per-wallet signature count,
resolved chronological history (oldest first), extracted outgoing
transfers, and a flag marking wallets whose signature fetch fails. -/
structure Chain where
  sigCount : String → Nat
  history : String → List Tx
  outgoing : String → List OutTx
  fetchFails : String → Bool

/-- Classification of one transaction from one account's point of view
(`TransactionAnalyzer.getTransactionType`). -/
inductive TxType where
  | RECEIVE
  | WITHDRAW
  | UNKNOWN
  deriving Repr, DecidableEq, Inhabited

/-- Fixed exclusion list of protocol addresses
(`SolanaService.isSystemProgram`). -/
def systemPrograms : List String :=
  ["11111111111111111111111111111111",
   "TokenkegQfeZyiNwAJbNbGKPFXCWuBvf9Ss623VQ5DA",
   "ATokenGPvbdGVxr1b2hvZbsiqW5xWH25efTNsLJA8knL",
   "ComputeBudget111111111111111111111111111111",
   "SysvarRent111111111111111111111111111111111",
   "SysvarC1ock11111111111111111111111111111111"]

/-- `SolanaService.isSystemProgram`. -/
def isSystemProgram (address : String) : Bool :=
  systemPrograms.contains address

/-- `TransactionAnalyzer.getTransactionType`: locate the wallet among the
transaction's account keys; classify by the lamport balance delta against
the 1000-lamport dust threshold.  A missing wallet, or an index with no
balance entry (NaN arithmetic in the source, whose comparisons are all
false), yields `UNKNOWN`. -/
def getTransactionType (walletAddress : String) (tx : Tx) : TxType :=
  if walletAddress ∈ tx.accountKeys then
    let i := tx.accountKeys.indexOf walletAddress
    if i < tx.preBalances.length ∧ i < tx.postBalances.length then
      let diff := tx.postBalances.getD i 0 - tx.preBalances.getD i 0
      if diff > 1000 then TxType.RECEIVE
      else if diff < -1000 then TxType.WITHDRAW
      else TxType.UNKNOWN
    else TxType.UNKNOWN
  else TxType.UNKNOWN

/-- `TransactionAnalyzer.getWithdrawDestination`: first non-source,
non-system account whose balance grew by more than 1000 lamports. -/
def getWithdrawDestination (sourceWallet : String) (tx : Tx) : Option String :=
  if sourceWallet ∈ tx.accountKeys then
    let si := tx.accountKeys.indexOf sourceWallet
    ((List.range tx.accountKeys.length).find? (fun i =>
        decide (i ≠ si) &&
        !(isSystemProgram (tx.accountKeys.getD i "")) &&
        decide (tx.postBalances.getD i 0 - tx.preBalances.getD i 0 > 1000))).map
      (fun i => tx.accountKeys.getD i "")
  else none

/-- `TransactionAnalyzer.getTransactionAmounts`: summed signed deltas
over the receive set and the withdraw set, `(totalReceived, totalWithdrawn)`. -/
def getTransactionAmounts (walletAddress : String)
    (receiveTxs withdrawTxs : List Tx) : Int × Int :=
  let totalReceived := receiveTxs.foldl (fun acc tx =>
    if walletAddress ∈ tx.accountKeys then
      let i := tx.accountKeys.indexOf walletAddress
      acc + (tx.postBalances.getD i 0 - tx.preBalances.getD i 0)
    else acc) 0
  let totalWithdrawn := withdrawTxs.foldl (fun acc tx =>
    if walletAddress ∈ tx.accountKeys then
      let i := tx.accountKeys.indexOf walletAddress
      acc + (tx.preBalances.getD i 0 - tx.postBalances.getD i 0)
    else acc) 0
  (totalReceived, totalWithdrawn)

/-- `SolanaService.getTotalTransactionCount`: one signature page of up to
100 entries; an exact count below 100, saturating at 100; any fetch error
is swallowed and reported as 0. -/
def getTotalTransactionCount (c : Chain) (walletAddress : String) : Nat :=
  if c.fetchFails walletAddress then 0
  else min (c.sigCount walletAddress) 100

/-- `SolanaService.getFirstTransactions`: the chronologically earliest
`limit` resolved transactions; a signature-fetch failure (after the
backoff retries) is rethrown to the caller.  The 1000-signature safety
cap and the skip of individually failed detail fetches are absorbed into
`Chain.history`. -/
def getFirstTransactions (c : Chain) (walletAddress : String) (limit : Nat) :
    Except String (List Tx) :=
  if c.fetchFails walletAddress then .error "Error getting first transactions"
  else .ok ((c.history walletAddress).take limit)

/-- Result of `TransactionAnalyzer.verifyFinalWallet`. -/
structure Verification where
  isFinal : Bool
  reason : String
  deriving Repr, DecidableEq

/-- `TransactionAnalyzer.verifyFinalWallet`: total-count check.  0 total
transactions → final (virgin); more than 1 → not final; exactly 1 →
final iff the fetched transaction classifies as a receive. -/
def verifyFinalWallet (c : Chain) (walletAddress : String) :
    Except String Verification :=
  let totalTxCount := getTotalTransactionCount c walletAddress
  if totalTxCount = 0 then
    .ok ⟨true, "Virgin wallet (no transactions)"⟩
  else if totalTxCount > 1 then
    .ok ⟨false, "Not fresh: wallet has " ++ toString totalTxCount ++
      " total transactions (only 1 allowed)"⟩
  else
    match getFirstTransactions c walletAddress 1 with
    | .error e => .error e
    | .ok transactions =>
      match transactions with
      | [] => .ok ⟨false, "Error: count says 1 TX but fetch returned 0"⟩
      | t :: _ =>
        let type := getTransactionType walletAddress t
        if type = TxType.RECEIVE then
          .ok ⟨true, "Fresh wallet: EXACTLY 1 transaction (receive)"⟩
        else
          .ok ⟨false, "Not fresh: first TX is not a receive"⟩

/-- Account pattern over the earliest transactions
(`analyzeFirstTransactions`): `VIRGIN` = no activity, `ONLY_RECEIVING` =
credit-only, `HOP` = relay, `OTHER` = mixed/disqualified. -/
inductive AccountPattern where
  | VIRGIN
  | ONLY_RECEIVING
  | HOP
  | OTHER
  deriving Repr, DecidableEq, Inhabited

/-- Result record of `TransactionAnalyzer.analyzeFirstTransactions`. -/
structure Analysis where
  pattern : AccountPattern
  receives : Nat
  withdraws : Nat
  nextWallet : Option String
  reason : String
  deriving Repr, DecidableEq, Inhabited

/-- `TransactionAnalyzer.analyzeFirstTransactions`: classify the earliest
`limit` transactions; empty → `VIRGIN`; exactly one receive and no
withdraw → final `ONLY_RECEIVING`; several receives and no withdraw →
non-final `ONLY_RECEIVING`; at least one receive and exactly one
withdraw forwarding at least 80 percent of the received lamports →
`HOP` with the resolved destination; everything else → `OTHER`.
The source computes the percentage with float division
`(withdrawn / received) * 100 >= 80`; with `received > 0` (guaranteed in
that branch) this is the exact integer test `100 * withdrawn ≥ 80 * received`. -/
def analyzeFirstTransactions (c : Chain) (walletAddress : String) (limit : Nat) :
    Except String Analysis :=
  match getFirstTransactions c walletAddress limit with
  | .error e => .error e
  | .ok transactions =>
    if transactions.length = 0 then
      .ok ⟨AccountPattern.VIRGIN, 0, 0, none, "No transactions found (virgin wallet)"⟩
    else
      let receives := transactions.filter
        (fun tx => getTransactionType walletAddress tx == TxType.RECEIVE)
      let withdraws := transactions.filter
        (fun tx => getTransactionType walletAddress tx == TxType.WITHDRAW)
      if receives.length = 1 ∧ withdraws.length = 0 then
        .ok ⟨AccountPattern.ONLY_RECEIVING, 1, 0, none,
          "Fresh wallet: 1 receive, 0 withdraws"⟩
      else if receives.length > 1 ∧ withdraws.length = 0 then
        .ok ⟨AccountPattern.ONLY_RECEIVING, receives.length, 0, none,
          "Only receiving: " ++ toString receives.length ++ " receives, 0 withdraws"⟩
      else if receives.length ≥ 1 ∧ withdraws.length = 1 then
        let amounts := getTransactionAmounts walletAddress receives withdraws
        if 100 * amounts.2 ≥ 80 * amounts.1 then
          let withdrawDest := getWithdrawDestination walletAddress (withdraws.headD default)
          .ok ⟨AccountPattern.HOP, receives.length, 1, withdrawDest,
            "Hop pattern: " ++ toString receives.length ++ " receive(s) + 1 withdraw"⟩
        else
          .ok ⟨AccountPattern.OTHER, receives.length, withdraws.length, none,
            "Partial withdraw: not a hop"⟩
      else
        .ok ⟨AccountPattern.OTHER, receives.length, withdraws.length, none,
          "Mixed pattern: " ++ toString receives.length ++ " receives, " ++
          toString withdraws.length ++ " withdraws"⟩

/-- The ladder of window sizes tried by
`TransactionAnalyzer.analyzeWithDynamicLimit` (`limitsToTry` in the
source): `[2, 3, 5, Math.min(10, maxTxToTry)]`. -/
def limitsToTry (maxTxToTry : Nat) : List Nat :=
  [2, 3, 5, min 10 maxTxToTry]

/-- The loop body of `analyzeWithDynamicLimit` over the remaining ladder:
return immediately on a final `ONLY_RECEIVING` (exactly one receive), on
`HOP`, or on `VIRGIN`; otherwise continue; with the ladder exhausted,
run one last analysis at the full `maxTxToTry` window. -/
def dynamicGo (c : Chain) (walletAddress : String) (maxTxToTry : Nat) :
    List Nat → Except String Analysis
  | [] => analyzeFirstTransactions c walletAddress maxTxToTry
  | limit :: rest =>
    match analyzeFirstTransactions c walletAddress limit with
    | .error e => .error e
    | .ok analysis =>
      if analysis.pattern = AccountPattern.ONLY_RECEIVING ∧ analysis.receives = 1 then
        .ok analysis
      else if analysis.pattern = AccountPattern.HOP then
        .ok analysis
      else if analysis.pattern = AccountPattern.VIRGIN then
        .ok analysis
      else
        dynamicGo c walletAddress maxTxToTry rest

/-- `TransactionAnalyzer.analyzeWithDynamicLimit`. -/
def analyzeWithDynamicLimit (c : Chain) (walletAddress : String)
    (maxTxToTry : Nat) : Except String Analysis :=
  dynamicGo c walletAddress maxTxToTry (limitsToTry maxTxToTry)

/-- Detection mode of a walk (the string-tagged `mode` parameter,
closed into an enumeration). -/
inductive Mode where
  | simple
  | hopping
  deriving Repr, DecidableEq

/-- Originating-transfer metadata handed to the walker (`txInfo`). -/
structure TxInfo where
  amount : Rat
  signature : String
  timestamp : Option Nat
  deriving Repr, DecidableEq, Inhabited

/-- `FreshWalletResult` (src/src/models/FreshWalletResult.js): the
terminal output of one chain walk. -/
structure FreshWalletResult where
  isFresh : Bool
  finalWallet : Option String
  path : List String
  hops : Nat
  reason : String
  exchange : String
  amount : Rat
  signature : String
  timestamp : Option Nat
  deriving Repr, DecidableEq, Inhabited

/-- Which return site of `detectFreshWallet` produced the result
(instrumentation tagging the distinct `return` statements of the source). -/
inductive Cause where
  | simpleFresh
  | simpleNotFresh
  | virgin
  | onlyReceivingFresh
  | onlyReceivingNotFresh
  | exchangeReentry
  | circularHop
  | otherPattern
  | maxHopsFresh
  | maxHopsNotFresh
  deriving Repr, DecidableEq

/-- A walk outcome: the `FreshWalletResult`, the return site that
produced it, and the wallets passed to `verifyFinalWallet` during the
walk, in order (instrumentation). -/
structure WalkOut where
  result : FreshWalletResult
  cause : Cause
  verifs : List String
  deriving Repr, DecidableEq

/-- Builds a `FreshWalletResult` from the walker state (the object
literal repeated at each return site of the source). -/
def mkRes (isFresh : Bool) (finalWallet : Option String) (path : List String)
    (hops : Nat) (reason exchangeName : String) (info : TxInfo) : FreshWalletResult :=
  { isFresh := isFresh, finalWallet := finalWallet, path := path, hops := hops,
    reason := reason, exchange := exchangeName, amount := info.amount,
    signature := info.signature, timestamp := info.timestamp }

/-- The `while (hops < this.maxHops)` loop of `detectFreshWallet` in
hopping mode, with `fuel = maxHops − hops` remaining iterations.
`fuel = 0` is the budget-exhausted exit: one strict verification of the
current wallet decides freshness.  Inside the loop: `VIRGIN` → fresh;
`ONLY_RECEIVING` → strict verification decides; `HOP` with a resolved
next wallet → terminate on exchange re-entry or on a wallet already in
`path`, else append and recurse; anything else → not fresh. -/
def hoppingLoop (c : Chain) (exchangeWallets : List String)
    (exchangeName : String) (info : TxInfo) (maxTxToTry maxHops : Nat) :
    Nat → String → List String → Nat → Except String WalkOut
  | 0, currentWallet, path, hops =>
    match verifyFinalWallet c currentWallet with
    | .error e => .error e
    | .ok v =>
      if v.isFinal then
        .ok ⟨mkRes true (some currentWallet) path hops
          ("Fresh wallet found at max hops (" ++ toString maxHops ++ "): " ++ v.reason)
          exchangeName info, Cause.maxHopsFresh, [currentWallet]⟩
      else
        .ok ⟨mkRes false none path hops
          ("Max hops (" ++ toString maxHops ++ ") reached and final wallet invalid: " ++
            v.reason) exchangeName info, Cause.maxHopsNotFresh, [currentWallet]⟩
  | fuel + 1, currentWallet, path, hops =>
    match analyzeWithDynamicLimit c currentWallet maxTxToTry with
    | .error e => .error e
    | .ok analysis =>
      if analysis.pattern = AccountPattern.VIRGIN then
        .ok ⟨mkRes true (some currentWallet) path hops
          ("Fresh wallet (virgin): " ++ analysis.reason) exchangeName info,
          Cause.virgin, []⟩
      else if analysis.pattern = AccountPattern.ONLY_RECEIVING then
        match verifyFinalWallet c currentWallet with
        | .error e => .error e
        | .ok v =>
          if v.isFinal then
            .ok ⟨mkRes true (some currentWallet) path hops
              ("Fresh wallet found after " ++ toString hops ++ " hop(s): " ++ v.reason)
              exchangeName info, Cause.onlyReceivingFresh, [currentWallet]⟩
          else
            .ok ⟨mkRes false none path hops ("Not fresh: " ++ v.reason)
              exchangeName info, Cause.onlyReceivingNotFresh, [currentWallet]⟩
      else if analysis.pattern = AccountPattern.HOP then
        match analysis.nextWallet with
        | some nextWallet =>
          if nextWallet ∈ exchangeWallets then
            .ok ⟨mkRes false none path hops
              ("Not fresh: hop " ++ toString hops ++ " withdraws back to exchange")
              exchangeName info, Cause.exchangeReentry, []⟩
          else if nextWallet ∈ path then
            .ok ⟨mkRes false none path hops
              ("Not fresh: circular hop detected (wallet " ++ nextWallet.take 8 ++
                " already in path)") exchangeName info, Cause.circularHop, []⟩
          else
            hoppingLoop c exchangeWallets exchangeName info maxTxToTry maxHops
              fuel nextWallet (path ++ [nextWallet]) (hops + 1)
        | none =>
          .ok ⟨mkRes false none path hops ("Not fresh: " ++ analysis.reason)
            exchangeName info, Cause.otherPattern, []⟩
      else
        .ok ⟨mkRes false none path hops ("Not fresh: " ++ analysis.reason)
          exchangeName info, Cause.otherPattern, []⟩

/-- `FreshWalletDetector.detectFreshWallet`: simple mode is one strict
total-count verification with zero hops; hopping mode runs the loop with
`path = [initialWallet]`, `hops = 0`, and the full hop budget. -/
def detectFreshWallet (c : Chain) (exchangeWallets : List String) (maxHops : Nat)
    (initialWallet exchangeName : String) (info : TxInfo) (maxTxToTry : Nat)
    (mode : Mode) : Except String WalkOut :=
  match mode with
  | Mode.simple =>
    match verifyFinalWallet c initialWallet with
    | .error e => .error e
    | .ok v =>
      if v.isFinal then
        .ok ⟨mkRes true (some initialWallet) [initialWallet] 0
          ("Fresh wallet (simple): " ++ v.reason) exchangeName info,
          Cause.simpleFresh, [initialWallet]⟩
      else
        .ok ⟨mkRes false none [initialWallet] 0
          ("Not fresh (simple mode): " ++ v.reason) exchangeName info,
          Cause.simpleNotFresh, [initialWallet]⟩
  | Mode.hopping =>
    hoppingLoop c exchangeWallets exchangeName info maxTxToTry maxHops
      maxHops initialWallet [initialWallet] 0

/-- `ScanFilter`: a `{min, max}` range or a `{value, tolerance}` target;
any other `filter.type` matches nothing. -/
inductive ScanFilter where
  | range (lo hi : Rat)
  | target (value tolerance : Rat)
  | other
  deriving Repr, DecidableEq

/-- `FreshWalletDetector.matchesFilter`. -/
def matchesFilter (amount : Rat) : ScanFilter → Bool
  | ScanFilter.range lo hi => decide (amount ≥ lo ∧ amount ≤ hi)
  | ScanFilter.target value tolerance => decide (|amount - value| ≤ value * tolerance)
  | ScanFilter.other => false

/-- Lookup in the scan cache (`this.processedWalletsCache.get`), the
cache being an association list written only through `scanLoop`. -/
def cacheGet (cache : List (String × FreshWalletResult)) (k : String) :
    Option FreshWalletResult :=
  (cache.find? (fun p => p.1 == k)).map Prod.snd

/-- Phase 1 of `scanExchangeWallets`: per exchange wallet, the outgoing
transfers within the time window, retained only when the amount matches
the filter, concatenated across the exchange wallets in order. -/
def collectFiltered (c : Chain) (exchangeWallets : List String)
    (filter : ScanFilter) : List OutTx :=
  (exchangeWallets.map (fun w =>
    (c.outgoing w).filter (fun tx => matchesFilter tx.amountSOL filter))).flatten

/-- The `uniqueWallets` dedup map of `scanExchangeWallets`: keep the
first-seen transfer per destination address, in first-seen order. -/
def dedupByDest (txs : List OutTx) : List OutTx :=
  (txs.foldl (fun (acc : List OutTx × List String) tx =>
    if tx.dest ∈ acc.2 then acc else (acc.1 ++ [tx], acc.2 ++ [tx.dest])) ([], [])).1

/-- Phase 2 of `scanExchangeWallets`: walk each deduplicated destination,
short-circuiting on a cache hit; cache the walker result; collect the
fresh ones.  `calls` records the destinations on which the walker was
actually invoked (instrumentation).  An exception from the walker
propagates: the source has no per-destination handler. -/
def scanLoop (c : Chain) (exchangeWallets : List String) (exchangeName : String)
    (mode : Mode) (maxHops : Nat) :
    List OutTx → List (String × FreshWalletResult) → List FreshWalletResult →
    List String →
    Except String (List FreshWalletResult × List (String × FreshWalletResult) × List String)
  | [], cache, results, calls => .ok (results, cache, calls)
  | tx :: rest, cache, results, calls =>
    match cacheGet cache tx.dest with
    | some cachedResult =>
      scanLoop c exchangeWallets exchangeName mode maxHops rest cache
        (if cachedResult.isFresh then results ++ [cachedResult] else results) calls
    | none =>
      match detectFreshWallet c exchangeWallets maxHops tx.dest exchangeName
          ⟨tx.amountSOL, tx.signature, tx.timestamp⟩ 10 mode with
      | .error e => .error e
      | .ok out =>
        scanLoop c exchangeWallets exchangeName mode maxHops rest
          (cache ++ [(tx.dest, out.result)])
          (if out.result.isFresh then results ++ [out.result] else results)
          (calls ++ [tx.dest])

/-- `FreshWalletDetector.scanExchangeWallets`: collect and filter the
outgoing transfers of all exchange wallets, deduplicate by destination,
then analyze each unique destination, starting from the empty cache the
constructor installs (the caller builds a fresh detector per scan). -/
def scanExchangeWallets (c : Chain) (exchangeWallets : List String)
    (exchangeName : String) (filter : ScanFilter) (mode : Mode) (maxHops : Nat) :
    Except String (List FreshWalletResult × List (String × FreshWalletResult) × List String) :=
  scanLoop c exchangeWallets exchangeName mode maxHops
    (dedupByDest (collectFiltered c exchangeWallets filter)) [] [] []

/-- The balance delta the classifier inspects: `postBalance − preBalance`
at the wallet's position among the account keys. -/
def balanceDelta (walletAddress : String) (tx : Tx) : Int :=
  tx.postBalances.getD (tx.accountKeys.indexOf walletAddress) 0 -
  tx.preBalances.getD (tx.accountKeys.indexOf walletAddress) 0

/-! ### Concrete ledgers used to exercise the definitions -/

/-- A credit of 2 SOL from exchange wallet EXC to wallet A. -/
def txCredA : Tx :=
  ⟨["EXC", "A"], [5000000000, 0], [3000000000, 2000000000]⟩

/-- Wallet A forwards 1.9 of its 2 SOL to wallet B (95 percent). -/
def txHopAB : Tx :=
  ⟨["A", "B"], [2000000000, 0], [100000000, 1900000000]⟩

/-- Wallet B forwards 1.8 SOL back to wallet A (a cycle). -/
def txHopBA : Tx :=
  ⟨["B", "A"], [1900000000, 0], [50000000, 1800000000]⟩

/-- Wallet A forwards 1.9 SOL back to the exchange wallet EXC. -/
def txHopAE : Tx :=
  ⟨["A", "EXC"], [2000000000, 5000000000], [100000000, 6900000000]⟩

/-- Transfer metadata used by the concrete walks. -/
def info0 : TxInfo := ⟨2, "sig0", some 5⟩

/-- A ledger on which every wallet is virgin: no signatures, no history,
no failures. -/
def cVirgin : Chain :=
  { sigCount := fun _ => 0, history := fun _ => [],
    outgoing := fun _ => [], fetchFails := fun _ => false }

/-- A ledger with a two-wallet cycle: A relays to B, B relays back to A. -/
def cCycle : Chain :=
  { sigCount := fun w => if w = "A" ∨ w = "B" then 2 else 0,
    history := fun w =>
      if w = "A" then [txCredA, txHopAB]
      else if w = "B" then [txHopAB, txHopBA] else [],
    outgoing := fun _ => [], fetchFails := fun _ => false }

/-- A ledger where A relays to B and B holds exactly one transaction
(the receive): a fresh terminal one hop away. -/
def cHop1 : Chain :=
  { sigCount := fun w => if w = "A" then 2 else if w = "B" then 1 else 0,
    history := fun w =>
      if w = "A" then [txCredA, txHopAB]
      else if w = "B" then [txHopAB] else [],
    outgoing := fun _ => [], fetchFails := fun _ => false }

/-- A ledger where A relays its funds straight back to the exchange
wallet EXC. -/
def cReentry : Chain :=
  { sigCount := fun w => if w = "A" then 2 else 0,
    history := fun w => if w = "A" then [txCredA, txHopAE] else [],
    outgoing := fun _ => [], fetchFails := fun _ => false }

/-- Outgoing transfer of 1 SOL to destination D1. -/
def txD1out : OutTx := ⟨"s1", some 1, 1, "D1"⟩

/-- Outgoing transfer of 1 SOL to destination D2. -/
def txD2out : OutTx := ⟨"s2", some 2, 1, "D2"⟩

/-- A ledger where exchange wallet EX1 paid D1 and D2, and D1's history
fetch fails (retries exhausted). -/
def cFail : Chain :=
  { sigCount := fun _ => 0, history := fun _ => [],
    outgoing := fun w => if w = "EX1" then [txD1out, txD2out] else [],
    fetchFails := fun w => w == "D1" }

/-- The same ledger with no fetch failure: both destinations analyzable
(and virgin, hence fresh). -/
def cOkTwo : Chain :=
  { sigCount := fun _ => 0, history := fun _ => [],
    outgoing := fun w => if w = "EX1" then [txD1out, txD2out] else [],
    fetchFails := fun _ => false }

/-- The walker result for destination D1 on `cOkTwo` (virgin, fresh). -/
def r1ok : FreshWalletResult :=
  mkRes true (some "D1") ["D1"] 0
    "Fresh wallet (virgin): No transactions found (virgin wallet)" "EXCH"
    ⟨1, "s1", some 1⟩

/-- The walker result for destination D2 on `cOkTwo` (virgin, fresh). -/
def r2ok : FreshWalletResult :=
  mkRes true (some "D2") ["D2"] 0
    "Fresh wallet (virgin): No transactions found (virgin wallet)" "EXCH"
    ⟨1, "s2", some 2⟩

/-- The analysis `analyzeWithDynamicLimit` produces for wallet B on
`cCycle`: a relay pointing back at A. -/
def aHopBA : Analysis :=
  ⟨AccountPattern.HOP, 1, 1, some "A", "Hop pattern: 1 receive(s) + 1 withdraw"⟩

/-- The analysis `analyzeWithDynamicLimit` produces for wallet A on
`cReentry`: a relay pointing at the exchange wallet. -/
def aHopAE : Analysis :=
  ⟨AccountPattern.HOP, 1, 1, some "EXC", "Hop pattern: 1 receive(s) + 1 withdraw"⟩

/-- The analysis of a virgin wallet at any window size. -/
def aVirgin : Analysis :=
  ⟨AccountPattern.VIRGIN, 0, 0, none, "No transactions found (virgin wallet)"⟩

/-- The walk outcome for a full hopping walk from A on `cCycle`:
terminates on cycle detection at hop 1 without appending A again. -/
def outCycle : WalkOut :=
  ⟨mkRes false none ["A", "B"] 1
    "Not fresh: circular hop detected (wallet A already in path)" "EXCH" info0,
   Cause.circularHop, []⟩

/-- The walk outcome for a hopping walk from A on `cHop1` with hop
budget 1: budget exhausted at B, final verification succeeds. -/
def outHop1 : WalkOut :=
  ⟨mkRes true (some "B") ["A", "B"] 1
    "Fresh wallet found at max hops (1): Fresh wallet: EXACTLY 1 transaction (receive)"
    "EXCH" info0, Cause.maxHopsFresh, ["B"]⟩

/-! ### Helper lemmas -/

/-- A cache miss means the key has never been written. -/
lemma cacheGet_none_iff (cache : List (String × FreshWalletResult)) (k : String) :
    cacheGet cache k = none ↔ k ∉ cache.map Prod.fst := by
  unfold cacheGet
  rw [Option.map_eq_none', List.find?_eq_none]
  simp only [beq_iff_eq, List.mem_map, not_exists]
  constructor
  · intro h x
    rintro ⟨hx, hk⟩
    exact h x hx hk
  · intro h x hx hk
    exact h x ⟨hx, hk⟩

/-- Invariant of the phase-2 loop: distinct cache keys and at-most-one
walker invocation per destination are preserved. -/
lemma scanLoop_inv (c : Chain) (exch : List String) (en : String) (mode : Mode)
    (maxHops : Nat) :
    ∀ (txs : List OutTx) cache results calls res cacheF callsF,
      scanLoop c exch en mode maxHops txs cache results calls = .ok (res, cacheF, callsF) →
      (cache.map Prod.fst).Nodup → calls.Nodup →
      (∀ a ∈ calls, a ∈ cache.map Prod.fst) →
      (cacheF.map Prod.fst).Nodup ∧ callsF.Nodup := by
  intro txs
  induction txs with
  | nil =>
    intro cache results calls res cacheF callsF h hc hl _
    simp only [scanLoop, Except.ok.injEq, Prod.mk.injEq] at h
    obtain ⟨-, rfl, rfl⟩ := h
    exact ⟨hc, hl⟩
  | cons tx rest ih =>
    intro cache results calls res cacheF callsF h hc hl hs
    rw [scanLoop] at h
    cases hg : cacheGet cache tx.dest with
    | some r =>
      rw [hg] at h
      exact ih _ _ _ _ _ _ h hc hl hs
    | none =>
      rw [hg] at h
      cases hd : detectFreshWallet c exch maxHops tx.dest en
          ⟨tx.amountSOL, tx.signature, tx.timestamp⟩ 10 mode with
      | error e => rw [hd] at h; exact absurd h (by simp)
      | ok out =>
        rw [hd] at h
        have hkn : tx.dest ∉ cache.map Prod.fst := (cacheGet_none_iff _ _).mp hg
        refine ih _ _ _ _ _ _ h ?_ ?_ ?_
        · simp [List.nodup_append, hc, hkn]
        · have : tx.dest ∉ calls := fun hmem => hkn (hs _ hmem)
          simp [List.nodup_append, hl, this]
        · intro a ha
          rw [List.map_append]
          rcases List.mem_append.mp ha with ha | ha
          · exact List.mem_append.mpr (Or.inl (hs _ ha))
          · simp only [List.mem_singleton] at ha
            subst ha
            simp

/-- Invariant of the hopping loop: the path stays duplicate-free, its
length tracks the hop count, the hop count cannot grow past the
remaining fuel, and the budget-exhausted exits perform exactly one
verification, on the wallet the walk stopped at. -/

lemma hoppingLoop_inv (c : Chain) (exch : List String) (en : String)
    (info : TxInfo) (maxTx maxHops : Nat) :
    ∀ (fuel : Nat) (w : String) (path : List String) (hops : Nat) (out : WalkOut),
      hoppingLoop c exch en info maxTx maxHops fuel w path hops = .ok out →
      path.Nodup → path.length = hops + 1 → path.getLast? = some w →
      out.result.path.Nodup ∧
      out.result.path.length = out.result.hops + 1 ∧
      out.result.hops ≤ hops + fuel ∧
      ((out.cause = Cause.maxHopsFresh ∨ out.cause = Cause.maxHopsNotFresh) →
        ∃ w2, out.result.path.getLast? = some w2 ∧ out.verifs = [w2]) := by
  intro fuel
  induction fuel with
  | zero =>
    intro w path hops out h hnd hlen hlast
    rw [hoppingLoop] at h
    cases hv : verifyFinalWallet c w with
    | error e => rw [hv] at h; exact Except.noConfusion h
    | ok v =>
      simp only [hv] at h
      by_cases hf : v.isFinal
      · rw [if_pos hf] at h
        rw [Except.ok.injEq] at h
        subst h
        exact ⟨hnd, hlen, Nat.le_add_right hops 0, fun _ => ⟨w, hlast, rfl⟩⟩
      · rw [if_neg hf] at h
        rw [Except.ok.injEq] at h
        subst h
        exact ⟨hnd, hlen, Nat.le_add_right hops 0, fun _ => ⟨w, hlast, rfl⟩⟩
  | succ fuel ih =>
    intro w path hops out h hnd hlen hlast
    rw [hoppingLoop] at h
    cases ha : analyzeWithDynamicLimit c w maxTx with
    | error e => rw [ha] at h; exact Except.noConfusion h
    | ok a =>
      simp only [ha] at h
      by_cases h1 : a.pattern = AccountPattern.VIRGIN
      · rw [if_pos h1] at h
        rw [Except.ok.injEq] at h
        subst h
        exact ⟨hnd, hlen, Nat.le_add_right hops (fuel + 1), fun hc => by rcases hc with hc | hc <;> exact Cause.noConfusion hc⟩
      · rw [if_neg h1] at h
        by_cases h2 : a.pattern = AccountPattern.ONLY_RECEIVING
        · rw [if_pos h2] at h
          cases hv : verifyFinalWallet c w with
          | error e => rw [hv] at h; exact Except.noConfusion h
          | ok v =>
            simp only [hv] at h
            by_cases hf : v.isFinal
            · rw [if_pos hf] at h
              rw [Except.ok.injEq] at h
              subst h
              exact ⟨hnd, hlen, Nat.le_add_right hops (fuel + 1),
                fun hc => by rcases hc with hc | hc <;> exact Cause.noConfusion hc⟩
            · rw [if_neg hf] at h
              rw [Except.ok.injEq] at h
              subst h
              exact ⟨hnd, hlen, Nat.le_add_right hops (fuel + 1),
                fun hc => by rcases hc with hc | hc <;> exact Cause.noConfusion hc⟩
        · rw [if_neg h2] at h
          by_cases h3 : a.pattern = AccountPattern.HOP
          · rw [if_pos h3] at h
            cases hnw : a.nextWallet with
            | none =>
              simp only [hnw] at h
              rw [Except.ok.injEq] at h
              subst h
              exact ⟨hnd, hlen, Nat.le_add_right hops (fuel + 1),
                fun hc => by rcases hc with hc | hc <;> exact Cause.noConfusion hc⟩
            | some nxt =>
              simp only [hnw] at h
              by_cases h4 : nxt ∈ exch
              · rw [if_pos h4] at h
                rw [Except.ok.injEq] at h
                subst h
                exact ⟨hnd, hlen, Nat.le_add_right hops (fuel + 1),
                  fun hc => by rcases hc with hc | hc <;> exact Cause.noConfusion hc⟩
              · rw [if_neg h4] at h
                by_cases h5 : nxt ∈ path
                · rw [if_pos h5] at h
                  rw [Except.ok.injEq] at h
                  subst h
                  exact ⟨hnd, hlen, Nat.le_add_right hops (fuel + 1),
                    fun hc => by rcases hc with hc | hc <;> exact Cause.noConfusion hc⟩
                · rw [if_neg h5] at h
                  have hnd2 : (path ++ [nxt]).Nodup := by
                    simp [List.nodup_append, hnd, h5]
                  have hlen2 : (path ++ [nxt]).length = (hops + 1) + 1 := by
                    simp [hlen]
                  have hlast2 : (path ++ [nxt]).getLast? = some nxt := by
                    simp [List.getLast?_append]
                  obtain ⟨g1, g2, g3, g4⟩ := ih nxt (path ++ [nxt]) (hops + 1) out h
                    hnd2 hlen2 hlast2
                  exact ⟨g1, g2, by omega, g4⟩
          · rw [if_neg h3] at h
            rw [Except.ok.injEq] at h
            subst h
            exact ⟨hnd, hlen, Nat.le_add_right hops (fuel + 1),
              fun hc => by rcases hc with hc | hc <;> exact Cause.noConfusion hc⟩

/-- A nonzero reported total count implies the signature fetch succeeded. -/
lemma fetchFails_false_of_count_ne_zero (c : Chain) (w : String)
    (h : getTotalTransactionCount c w ≠ 0) : c.fetchFails w = false := by
  by_cases hf : c.fetchFails w
  · exact absurd (by simp [getTotalTransactionCount, hf]) h
  · simpa using hf

/-- `verifyFinalWallet` never rejects, and accepts exactly the virgin
wallets and the wallets with exactly one (fetched, credit) transaction. -/
lemma verifyFinalWallet_char (c : Chain) (w : String) :
    ∃ v, verifyFinalWallet c w = .ok v ∧
      (v.isFinal = true ↔
        getTotalTransactionCount c w = 0 ∨
        (getTotalTransactionCount c w = 1 ∧
          ∃ t rest, getFirstTransactions c w 1 = .ok (t :: rest) ∧
            getTransactionType w t = TxType.RECEIVE)) := by
  simp only [verifyFinalWallet]
  by_cases h0 : getTotalTransactionCount c w = 0
  · rw [if_pos h0]
    exact ⟨_, rfl, by simp [h0]⟩
  · rw [if_neg h0]
    by_cases h1 : getTotalTransactionCount c w > 1
    · rw [if_pos h1]
      refine ⟨_, rfl, ?_⟩
      constructor
      · intro hF
        simp at hF
      · rintro (h | ⟨h, -⟩)
        · exact absurd h h0
        · omega
    · have hn1 : getTotalTransactionCount c w = 1 := by omega
      have hff : c.fetchFails w = false := fetchFails_false_of_count_ne_zero c w h0
      rw [if_neg h1]
      cases hg : getFirstTransactions c w 1 with
      | error e =>
        exfalso
        simp [getFirstTransactions, hff] at hg
      | ok ts =>
        simp only [hg]
        cases ts with
        | nil =>
          refine ⟨_, rfl, ?_⟩
          constructor
          · intro hF
            simp at hF
          · rintro (h | ⟨-, t, rest, hg2, -⟩)
            · exact absurd h h0
            · simp at hg2
        | cons t ts' =>
          by_cases ht : getTransactionType w t = TxType.RECEIVE
          · refine ⟨⟨true, "Fresh wallet: EXACTLY 1 transaction (receive)"⟩, ?_, ?_⟩
            · show (if getTransactionType w t = TxType.RECEIVE then _ else _) = _
              rw [if_pos ht]
            · exact iff_of_true rfl (Or.inr ⟨hn1, t, ts', rfl, ht⟩)
          · refine ⟨⟨false, "Not fresh: first TX is not a receive"⟩, ?_, ?_⟩
            · show (if getTransactionType w t = TxType.RECEIVE then _ else _) = _
              rw [if_neg ht]
            · constructor
              · intro hF
                simp at hF
              · rintro (h | ⟨-, t2, rest2, hg2, ht2⟩)
                · exact absurd h h0
                · simp only [Except.ok.injEq, List.cons.injEq] at hg2
                  obtain ⟨rfl, -⟩ := hg2
                  exact absurd ht2 ht

/-! ### Claim theorems -/
/-- Claim C7: for every (account, transaction) pair, the classifier
returns RECEIVE iff the account is involved and its balance delta
exceeds the 1000-lamport dust threshold, WITHDRAW iff the delta is below
the negated threshold, and UNKNOWN otherwise — in particular whenever
the account is not among the involved addresses.  (Stated for
transactions whose balance arrays cover the account keys, as ledger
transactions do.) -/
theorem getTransactionType_characterization (w : String) (tx : Tx)
    (hpre : tx.preBalances.length = tx.accountKeys.length)
    (hpost : tx.postBalances.length = tx.accountKeys.length) :
    (getTransactionType w tx = TxType.RECEIVE ↔
      w ∈ tx.accountKeys ∧ balanceDelta w tx > 1000) ∧
    (getTransactionType w tx = TxType.WITHDRAW ↔
      w ∈ tx.accountKeys ∧ balanceDelta w tx < -1000) ∧
    (getTransactionType w tx = TxType.UNKNOWN ↔
      w ∉ tx.accountKeys ∨ (-1000 ≤ balanceDelta w tx ∧ balanceDelta w tx ≤ 1000)) := by
  by_cases hm : w ∈ tx.accountKeys
  · have hidx : tx.accountKeys.indexOf w < tx.accountKeys.length :=
      List.indexOf_lt_length.mpr hm
    have hcond : tx.accountKeys.indexOf w < tx.preBalances.length ∧
        tx.accountKeys.indexOf w < tx.postBalances.length := ⟨hpre ▸ hidx, hpost ▸ hidx⟩
    have hred : getTransactionType w tx =
        (if balanceDelta w tx > 1000 then TxType.RECEIVE
         else if balanceDelta w tx < -1000 then TxType.WITHDRAW else TxType.UNKNOWN) := by
      simp only [getTransactionType, if_pos hm, if_pos hcond, balanceDelta]
    rw [hred]
    by_cases h1 : balanceDelta w tx > 1000
    · simp [h1, hm]
      omega
    · by_cases h2 : balanceDelta w tx < -1000
      · simp [h1, h2, hm]
      · simp [h1, h2, hm]
        omega
  · simp [getTransactionType, hm]

/-- Claim C8: `matchesFilter` accepts an amount under a range filter iff
min ≤ amount ≤ max, and under a target filter iff
|amount − value| ≤ value·tolerance. -/
theorem matchesFilter_characterization (amount lo hi value tolerance : Rat) :
    (matchesFilter amount (ScanFilter.range lo hi) = true ↔
      lo ≤ amount ∧ amount ≤ hi) ∧
    (matchesFilter amount (ScanFilter.target value tolerance) = true ↔
      |amount - value| ≤ value * tolerance) := by
  constructor
  · simp [matchesFilter, and_comm]
  · simp [matchesFilter]

/-- Claim C10: when the signature fetch fails, `getTotalTransactionCount`
swallows the error and returns 0, `verifyFinalWallet` therefore reports
a virgin final wallet, and a simple-mode walk returns isFresh = true
with zero hops instead of an error or a skipped destination. -/
theorem rpc_failure_reports_fresh (c : Chain) (exch : List String) (maxHops : Nat)
    (w en : String) (info : TxInfo) (maxTx : Nat) (h : c.fetchFails w = true) :
    getTotalTransactionCount c w = 0 ∧
    verifyFinalWallet c w = .ok ⟨true, "Virgin wallet (no transactions)"⟩ ∧
    (detectFreshWallet c exch maxHops w en info maxTx Mode.simple).map
      (fun o => (o.result.isFresh, o.result.hops)) = .ok (true, 0) := by
  have h0 : getTotalTransactionCount c w = 0 := by
    simp [getTotalTransactionCount, h]
  have hv : verifyFinalWallet c w = .ok ⟨true, "Virgin wallet (no transactions)"⟩ := by
    simp [verifyFinalWallet, h0]
  refine ⟨h0, hv, ?_⟩
  simp only [detectFreshWallet, hv]
  rfl

/-- Witness for C10 on the ledger `cFail`, whose destination D1 has a
failing signature fetch. -/
theorem rpc_failure_reports_fresh_witness :
    cFail.fetchFails "D1" = true ∧
    (getTotalTransactionCount cFail "D1" = 0 ∧
     verifyFinalWallet cFail "D1" = .ok ⟨true, "Virgin wallet (no transactions)"⟩ ∧
     (detectFreshWallet cFail [] 3 "D1" "EXCH" info0 10 Mode.simple).map
       (fun o => (o.result.isFresh, o.result.hops)) = .ok (true, 0)) :=
  ⟨rfl, rpc_failure_reports_fresh cFail [] 3 "D1" "EXCH" info0 10 rfl⟩

/-- Claim C1 (amended): in simple mode the walker always succeeds with
hops = 0 and path = [initialWallet], and declares the wallet fresh iff
its reported total transaction count is 0 (virgin), or the count is
exactly 1 and the fetched single transaction classifies as a receive.
(The claim as frozen — fresh only when the count is exactly 1, never on
zero transactions — is refuted by
`detect_simple_zero_tx_counterexample`.) -/
theorem detect_simple_characterization (c : Chain) (exch : List String)
    (maxHops : Nat) (w en : String) (info : TxInfo) (maxTx : Nat) :
    ∃ out, detectFreshWallet c exch maxHops w en info maxTx Mode.simple = .ok out ∧
      out.result.hops = 0 ∧ out.result.path = [w] ∧
      (out.result.isFresh = true ↔
        getTotalTransactionCount c w = 0 ∨
        (getTotalTransactionCount c w = 1 ∧
          ∃ t rest, getFirstTransactions c w 1 = .ok (t :: rest) ∧
            getTransactionType w t = TxType.RECEIVE)) := by
  obtain ⟨v, hv, hiff⟩ := verifyFinalWallet_char c w
  simp only [detectFreshWallet, hv]
  by_cases hf : v.isFinal
  · rw [if_pos hf]
    exact ⟨_, rfl, rfl, rfl, iff_of_true rfl (hiff.mp hf)⟩
  · rw [if_neg hf]
    exact ⟨_, rfl, rfl, rfl,
      iff_of_false (by simp [mkRes]) (fun hr => hf (hiff.mpr hr))⟩

/-- Counterexample to claim C1 as frozen: on a ledger where the wallet
has zero transactions, simple mode returns isFresh = true, not false. -/
theorem detect_simple_zero_tx_counterexample :
    getTotalTransactionCount cVirgin "walletA" = 0 ∧
    (detectFreshWallet cVirgin [] 3 "walletA" "EXCH" info0 10 Mode.simple).map
      (fun o => (o.result.isFresh, o.result.hops)) = .ok (true, 0) :=
  ⟨rfl, rfl⟩

/-- Claim C2 (refuted; the spec describes the intended behavior): when
one destination's history fetch fails, `scanExchangeWallets` propagates
the exception and aborts the whole scan with no partial result list —
on the same ledger without the failure, the scan returns both
destinations fresh, so the failure also discards the unaffected
destination's result. -/
theorem scan_aborts_on_destination_failure :
    scanExchangeWallets cFail ["EX1"] "EXCH" (ScanFilter.range 0 10) Mode.hopping 3 =
      .error "Error getting first transactions" ∧
    (scanExchangeWallets cOkTwo ["EX1"] "EXCH" (ScanFilter.range 0 10) Mode.hopping 3).map
      (fun r => (r.1.map (fun x => x.finalWallet), r.2.2)) =
      .ok ([some "D1", some "D2"], ["D1", "D2"]) :=
  ⟨rfl, rfl⟩

/-- Witness for C7 at the concrete credit transaction `txCredA`. -/
theorem getTransactionType_characterization_witness :
    (getTransactionType "A" txCredA = TxType.RECEIVE ↔
      "A" ∈ txCredA.accountKeys ∧ balanceDelta "A" txCredA > 1000) ∧
    (getTransactionType "A" txCredA = TxType.WITHDRAW ↔
      "A" ∈ txCredA.accountKeys ∧ balanceDelta "A" txCredA < -1000) ∧
    (getTransactionType "A" txCredA = TxType.UNKNOWN ↔
      "A" ∉ txCredA.accountKeys ∨
        (-1000 ≤ balanceDelta "A" txCredA ∧ balanceDelta "A" txCredA ≤ 1000)) :=
  getTransactionType_characterization "A" txCredA rfl rfl

/-- Claim C9: the adaptive analyzer iterates `analyzeFirstTransactions`
over the ladder of window sizes (2, 3, 5, up to the bound — the source
caps the last rung at min(10, maxTxToTry), which equals the bound for
every bound between 5 and 10, including the only value used, 10),
returning immediately on HOP, on VIRGIN, or on ONLY_RECEIVING with
exactly one receive; continuing past OTHER or ONLY_RECEIVING with more
than one receive; and, with the ladder exhausted, returning the analysis
of the final full-size window. -/
theorem analyzeWithDynamicLimit_ladder :
    (∀ maxTxToTry, 5 ≤ maxTxToTry → maxTxToTry ≤ 10 →
        limitsToTry maxTxToTry = [2, 3, 5, maxTxToTry]) ∧
    (∀ (c : Chain) (w : String) (maxTxToTry : Nat),
        analyzeWithDynamicLimit c w maxTxToTry =
          dynamicGo c w maxTxToTry (limitsToTry maxTxToTry)) ∧
    (∀ (c : Chain) (w : String) (maxTxToTry limit : Nat) (rest : List Nat)
        (a : Analysis),
        analyzeFirstTransactions c w limit = .ok a →
        (a.pattern = AccountPattern.HOP ∨ a.pattern = AccountPattern.VIRGIN ∨
          (a.pattern = AccountPattern.ONLY_RECEIVING ∧ a.receives = 1)) →
        dynamicGo c w maxTxToTry (limit :: rest) = .ok a) ∧
    (∀ (c : Chain) (w : String) (maxTxToTry limit : Nat) (rest : List Nat)
        (a : Analysis),
        analyzeFirstTransactions c w limit = .ok a →
        (a.pattern = AccountPattern.OTHER ∨
          (a.pattern = AccountPattern.ONLY_RECEIVING ∧ a.receives ≠ 1)) →
        dynamicGo c w maxTxToTry (limit :: rest) = dynamicGo c w maxTxToTry rest) ∧
    (∀ (c : Chain) (w : String) (maxTxToTry : Nat),
        dynamicGo c w maxTxToTry [] = analyzeFirstTransactions c w maxTxToTry) := by
  refine ⟨?_, fun _ _ _ => rfl, ?_, ?_, fun _ _ _ => rfl⟩
  · intro m h5 h10
    simp [limitsToTry, Nat.min_eq_right h10]
  · intro c w m l rest a ha hd
    rw [dynamicGo]
    simp only [ha]
    rcases hd with h | h | ⟨h, hr⟩
    · rw [if_neg (by simp [h]), if_pos h]
    · rw [if_neg (by simp [h]), if_neg (by simp [h]), if_pos h]
    · rw [if_pos ⟨h, hr⟩]
  · intro c w m l rest a ha hd
    rw [dynamicGo]
    simp only [ha]
    rcases hd with h | ⟨h, hr⟩
    · rw [if_neg (by simp [h]), if_neg (by simp [h]), if_neg (by simp [h])]
    · rw [if_neg (fun hc => hr hc.2), if_neg (by simp [h]), if_neg (by simp [h])]

/-- Witness for C9: the concrete ladder at bound 10, and the immediate
return on a VIRGIN analysis at the first rung. -/
theorem analyzeWithDynamicLimit_ladder_witness :
    limitsToTry 10 = [2, 3, 5, 10] ∧
    dynamicGo cVirgin "walletA" 10 (2 :: [3, 5, 10]) = .ok aVirgin := by
  refine ⟨analyzeWithDynamicLimit_ladder.1 10 (by decide) (by decide), ?_⟩
  exact analyzeWithDynamicLimit_ladder.2.2.1 cVirgin "walletA" 10 2 [3, 5, 10]
    aVirgin rfl (Or.inr (Or.inl rfl))

/-- Claim C6: at every hop with budget remaining, if the resolved next
account is one of the known exchange wallets, the walk terminates not
fresh at that hop, regardless of the remaining budget, with the path
unchanged (the exchange address is never appended). -/
theorem walker_exchange_reentry_stops (c : Chain) (exch : List String) (en : String)
    (info : TxInfo) (maxTx maxHops fuel : Nat) (w : String) (path : List String)
    (hops : Nat) (a : Analysis) (n : String)
    (ha : analyzeWithDynamicLimit c w maxTx = .ok a)
    (hp : a.pattern = AccountPattern.HOP) (hn : a.nextWallet = some n)
    (hx : n ∈ exch) :
    hoppingLoop c exch en info maxTx maxHops (fuel + 1) w path hops =
      .ok ⟨mkRes false none path hops
        ("Not fresh: hop " ++ toString hops ++ " withdraws back to exchange")
        en info, Cause.exchangeReentry, []⟩ := by
  rw [hoppingLoop]
  simp only [ha]
  rw [if_neg (by simp [hp]), if_neg (by simp [hp]), if_pos hp]
  simp only [hn]
  rw [if_pos hx]

/-- Witness for C6 on the ledger `cReentry`, where A relays straight
back to the exchange wallet EXC. -/
theorem walker_exchange_reentry_stops_witness :
    hoppingLoop cReentry ["EXC"] "EXCH" info0 10 3 3 "A" ["A"] 0 =
      .ok ⟨mkRes false none ["A"] 0
        ("Not fresh: hop " ++ toString 0 ++ " withdraws back to exchange")
        "EXCH" info0, Cause.exchangeReentry, []⟩ :=
  walker_exchange_reentry_stops cReentry ["EXC"] "EXCH" info0 10 3 2 "A" ["A"] 0
    aHopAE "EXC" rfl rfl rfl (by decide)

/-- Claim C4: every path produced by the walker is duplicate-free, and
whenever a HOP resolves to a next wallet already present in the current
path, the walk terminates not fresh without appending that address. -/
theorem walker_path_nodup_and_cycle_stop :
    (∀ (c : Chain) (exch : List String) (maxHops : Nat) (w en : String)
        (info : TxInfo) (maxTx : Nat) (mode : Mode) (out : WalkOut),
        detectFreshWallet c exch maxHops w en info maxTx mode = .ok out →
        out.result.path.Nodup) ∧
    (∀ (c : Chain) (exch : List String) (en : String) (info : TxInfo)
        (maxTx maxHops fuel : Nat) (w : String) (path : List String) (hops : Nat)
        (a : Analysis) (n : String),
        analyzeWithDynamicLimit c w maxTx = .ok a →
        a.pattern = AccountPattern.HOP → a.nextWallet = some n →
        n ∉ exch → n ∈ path →
        hoppingLoop c exch en info maxTx maxHops (fuel + 1) w path hops =
          .ok ⟨mkRes false none path hops
            ("Not fresh: circular hop detected (wallet " ++ n.take 8 ++
              " already in path)") en info, Cause.circularHop, []⟩) := by
  constructor
  · intro c exch maxHops w en info maxTx mode out h
    cases mode with
    | simple =>
      simp only [detectFreshWallet] at h
      cases hv : verifyFinalWallet c w with
      | error e => rw [hv] at h; exact Except.noConfusion h
      | ok v =>
        simp only [hv] at h
        by_cases hf : v.isFinal
        · rw [if_pos hf, Except.ok.injEq] at h
          subst h
          simp [mkRes]
        · rw [if_neg hf, Except.ok.injEq] at h
          subst h
          simp [mkRes]
    | hopping =>
      exact (hoppingLoop_inv c exch en info maxTx maxHops maxHops w [w] 0 out h
        (List.nodup_singleton w) rfl rfl).1
  · intro c exch en info maxTx maxHops fuel w path hops a n ha hp hn hx hmem
    rw [hoppingLoop]
    simp only [ha]
    rw [if_neg (by simp [hp]), if_neg (by simp [hp]), if_pos hp]
    simp only [hn]
    rw [if_neg hx, if_pos hmem]

/-- Witness for C4 on the cyclic ledger `cCycle` (A relays to B, B back
to A). -/
theorem walker_path_nodup_and_cycle_stop_witness :
    outCycle.result.path.Nodup ∧
    hoppingLoop cCycle ["EXC"] "EXCH" info0 10 3 2 "B" ["A", "B"] 1 =
      .ok ⟨mkRes false none ["A", "B"] 1
        ("Not fresh: circular hop detected (wallet " ++ "A".take 8 ++
          " already in path)") "EXCH" info0, Cause.circularHop, []⟩ :=
  ⟨walker_path_nodup_and_cycle_stop.1 cCycle ["EXC"] 3 "A" "EXCH" info0 10
      Mode.hopping outCycle rfl,
   walker_path_nodup_and_cycle_stop.2 cCycle ["EXC"] "EXCH" info0 10 3 1 "B"
      ["A", "B"] 1 aHopBA "A" rfl rfl rfl (by decide) (by decide)⟩

/-- Claim C5: every relay-following walk satisfies hops ≤ maxHops with
path length = hops + 1, and a walk that terminates through the
budget-exhausted exit performed exactly one strict verification, on the
wallet the walk stopped at (the last path entry). -/
theorem walker_hop_budget_and_final_verification
    (c : Chain) (exch : List String) (maxHops : Nat) (w en : String)
    (info : TxInfo) (maxTx : Nat) (out : WalkOut)
    (h : detectFreshWallet c exch maxHops w en info maxTx Mode.hopping = .ok out) :
    out.result.hops ≤ maxHops ∧
    out.result.path.length = out.result.hops + 1 ∧
    ((out.cause = Cause.maxHopsFresh ∨ out.cause = Cause.maxHopsNotFresh) →
      ∃ w2, out.result.path.getLast? = some w2 ∧ out.verifs = [w2]) := by
  obtain ⟨g1, g2, g3, g4⟩ := hoppingLoop_inv c exch en info maxTx maxHops maxHops
    w [w] 0 out h (List.nodup_singleton w) rfl rfl
  exact ⟨by omega, g2, g4⟩

/-- Witness for C5 on the ledger `cHop1` with hop budget 1: the budget
is exhausted at B and the single final verification accepts it. -/
theorem walker_hop_budget_and_final_verification_witness :
    outHop1.result.hops ≤ 1 ∧
    outHop1.result.path.length = outHop1.result.hops + 1 ∧
    ((outHop1.cause = Cause.maxHopsFresh ∨ outHop1.cause = Cause.maxHopsNotFresh) →
      ∃ w2, outHop1.result.path.getLast? = some w2 ∧ outHop1.verifs = [w2]) :=
  walker_hop_budget_and_final_verification cHop1 ["EXC"] 1 "A" "EXCH" info0 10
    outHop1 rfl

/-- Claim C3: the cache is scan-scoped — `scanExchangeWallets` starts
every scan from the empty cache the constructor installs; within a scan
every cache key is written at most once and the walker runs at most once
per destination (distinct keys and distinct walker calls); and a cache
hit short-circuits the loop, reusing the stored result verbatim without
invoking the walker. -/
theorem scan_cache_scoped_write_once :
    (∀ (c : Chain) (exch : List String) (en : String) (filter : ScanFilter)
        (mode : Mode) (maxHops : Nat) res cacheF callsF,
        scanExchangeWallets c exch en filter mode maxHops = .ok (res, cacheF, callsF) →
        (cacheF.map Prod.fst).Nodup ∧ callsF.Nodup) ∧
    (∀ (c : Chain) (exch : List String) (en : String) (mode : Mode) (maxHops : Nat)
        (tx : OutTx) (rest : List OutTx) cache results calls (r : FreshWalletResult),
        cacheGet cache tx.dest = some r →
        scanLoop c exch en mode maxHops (tx :: rest) cache results calls =
          scanLoop c exch en mode maxHops rest cache
            (if r.isFresh then results ++ [r] else results) calls) ∧
    (∀ (c : Chain) (exch : List String) (en : String) (filter : ScanFilter)
        (mode : Mode) (maxHops : Nat),
        scanExchangeWallets c exch en filter mode maxHops =
          scanLoop c exch en mode maxHops
            (dedupByDest (collectFiltered c exch filter)) [] [] []) := by
  refine ⟨?_, ?_, fun _ _ _ _ _ _ => rfl⟩
  · intro c exch en filter mode maxHops res cacheF callsF h
    exact scanLoop_inv c exch en mode maxHops _ [] [] [] res cacheF callsF h
      (by simp) (by simp) (by simp)
  · intro c exch en mode maxHops tx rest cache results calls r hg
    rw [scanLoop]
    simp only [hg]

/-- Witness for C3: the concrete scan over `cOkTwo`, and a cache-hit
step that returns the seeded result without a walker call. -/
theorem scan_cache_scoped_write_once_witness :
    (([("D1", r1ok), ("D2", r2ok)].map Prod.fst).Nodup ∧
      (["D1", "D2"] : List String).Nodup) ∧
    scanLoop cOkTwo ["EX1"] "EXCH" Mode.hopping 3 [txD1out] [("D1", r1ok)] [] [] =
      scanLoop cOkTwo ["EX1"] "EXCH" Mode.hopping 3 [] [("D1", r1ok)]
        (if r1ok.isFresh then [] ++ [r1ok] else []) [] :=
  ⟨scan_cache_scoped_write_once.1 cOkTwo ["EX1"] "EXCH" (ScanFilter.range 0 10)
      Mode.hopping 3 [r1ok, r2ok] [("D1", r1ok), ("D2", r2ok)] ["D1", "D2"] rfl,
   scan_cache_scoped_write_once.2.1 cOkTwo ["EX1"] "EXCH" Mode.hopping 3 txD1out
      [] [("D1", r1ok)] [] [] r1ok rfl⟩
